import Mathlib

/-
Verification of the Keboola component schema tester
(src/plugins/component-developer/skills/build-component-ui/schema-tester/
component_schema_tester.py) against its natural-language specification.
The Python/Flask dispatcher and the embedded JavaScript form engine are
shallowly embedded as Lean definitions; file-system and DOM effects are
modelled as explicit environment records.
-/

namespace SchemaTester

/-- Model of a JavaScript/Python JSON-like runtime value.  `undefined` models the
JavaScript `undefined` value (result of reading an absent property); it never
occurs inside parsed JSON documents. -/
inductive Json where
  | null
  | undefined
  | bool (b : Bool)
  | num (n : Int)
  | str (s : String)
  | arr (elems : List Json)
  | obj (fields : List (String × Json))

/-- First-match association-list lookup, the semantics of reading a key from a
JavaScript object literal or a Python dict built from parsed JSON (keys are
unique in parsed JSON, so first match is the match). -/
def alookup {α : Type} : List (String × α) → String → Option α
  | [], _ => none
  | (k', v) :: rest, k => if k' = k then some v else alookup rest k

/-- Property access `j[k]` on a JavaScript value: a present key yields its
value, an absent key (or access on a primitive) yields `undefined`. -/
def jsGet (j : Json) (k : String) : Json :=
  match j with
  | .obj fields => (alookup fields k).getD .undefined
  | _ => .undefined

/-- JavaScript truthiness: `null`, `undefined`, `false`, `0` and the empty
string are falsy; every object and array is truthy. -/
def jsTruthy : Json → Bool
  | .null => false
  | .undefined => false
  | .bool b => b
  | .num n => n != 0
  | .str s => s != ""
  | .arr _ => true
  | .obj _ => true

/-- Python truthiness: as JavaScript, except that empty lists and empty dicts
are also falsy. -/
def pyTruthy : Json → Bool
  | .null => false
  | .undefined => false
  | .bool b => b
  | .num n => n != 0
  | .str s => s != ""
  | .arr xs => !xs.isEmpty
  | .obj fs => !fs.isEmpty

/-! ## Action dispatcher (`sync_action`, server side)

The `/sync-action` endpoint resolves an action name to a method of the
dynamically imported `Component` class.  The name conversion
`camel_to_snake` is the pair of regex substitutions, one inserting an
underscore before an upper-case letter that starts a capitalised word and
one between a lower-case letter or digit and an upper-case letter,
followed by lower-casing; both patterns are ASCII-only on these inputs,
and `re.sub` rewrites leftmost non-overlapping matches, resuming the scan
directly after each match. -/

/-- First substitution of `camel_to_snake`: insert an underscore between any
character (except a newline, which the dot does not match) and an
occurrence of an upper-case letter followed by a non-empty run of
lower-case letters; the scan resumes after the lower-case run.  `fuel`
bounds the recursion by the length of the list; it is always sufficient
because every step consumes at least one character. -/
def sub1Fuel : Nat → List Char → List Char
  | 0, l => l
  | fuel + 1, c1 :: c2 :: c3 :: rest =>
    if c1 ≠ '\n' ∧ c2.isUpper ∧ c3.isLower then
      c1 :: '_' :: c2 :: c3 ::
        (rest.takeWhile Char.isLower ++ sub1Fuel fuel (rest.dropWhile Char.isLower))
    else
      c1 :: sub1Fuel fuel (c2 :: c3 :: rest)
  | _ + 1, l => l

def sub1 (l : List Char) : List Char := sub1Fuel l.length l

/-- Second substitution of `camel_to_snake`: insert an underscore between a
lower-case letter or digit and an upper-case letter; the scan resumes after
the matched pair. -/
def sub2 : List Char → List Char
  | c1 :: c2 :: rest =>
    if (c1.isLower ∨ c1.isDigit) ∧ c2.isUpper then
      c1 :: '_' :: c2 :: sub2 rest
    else
      c1 :: sub2 (c2 :: rest)
  | l => l

/-- The `camel_to_snake` helper defined inside `sync_action`. -/
def camel_to_snake (name : String) : String :=
  String.mk ((sub2 (sub1 name.data)).map Char.toLower)

/-- Python `action.replace` of every hyphen by an underscore. -/
def hyphen_to_underscore (s : String) : String :=
  String.mk (s.data.map fun c => if c = '-' then '_' else c)

/-- The `possible_names` list tried by `sync_action`, in order: the literal
action, its camel-case to snake-case conversion, and its hyphen to
underscore conversion. -/
def possible_names (action : String) : List String :=
  [action, camel_to_snake action, hyphen_to_underscore action]

/-- A Python exception as observed by the handler: its message and its
full formatted traceback. -/
structure PyExc where
  msg : String
  trace : String
deriving DecidableEq

/-- Outcome of calling a nullary Python callable. -/
inductive CallOutcome where
  | returns (result : Json)
  | raises (e : PyExc)

/-- An attribute of the instantiated `Component` object: its truthiness,
whether it is callable, and, when invoked, its outcome. -/
structure PyAttr where
  truthy : Bool
  isCallable : Bool
  call : CallOutcome

/-- The instantiated backend unit, as the dispatcher observes it through
`hasattr` and `getattr`: a finite attribute table. -/
structure BackendUnit where
  attrs : List (String × PyAttr)

/-- The resolution loop of `sync_action`: take the first name of
`possible_names` for which `hasattr` holds and `getattr` it; callability
is not consulted during this loop. -/
def resolveMethod (comp : BackendUnit) : List String → Option PyAttr
  | [] => none
  | n :: rest =>
    match alookup comp.attrs n with
    | some a => some a
    | none => resolveMethod comp rest

/-- Outcome of importing the `Component` class: success, an import error
(caught by the dedicated handler), or any other exception (propagating to
the generic handler). -/
inductive ImportOutcome where
  | ok
  | importError (msg : String)
  | raises (e : PyExc)

/-- Outcome of instantiating the `Component` class. -/
inductive InstOutcome where
  | ok (comp : BackendUnit)
  | raises (e : PyExc)

/-- File-system answers used by the `componentPath` override resolution in
`sync_action`: whether the path is a directory, whether its base name is
the config subfolder name, and its parent directory. -/
structure PathEnv where
  isDir : Bool
  baseIsComponentConfig : Bool
  parentDir : String

/-- Step 1 of `sync_action`: pick the project root.  With no
`componentPath` (or one that is not a directory) the global root is used; a
directory named for the config subfolder resolves to its parent; any other
directory is used as given (the two remaining branches coincide). -/
def resolveProjectRoot (globalRoot : String) (componentPath : Option String)
    (pe : PathEnv) : String :=
  match componentPath with
  | none => globalRoot
  | some p =>
    if pe.isDir then
      if pe.baseIsComponentConfig then pe.parentDir else p
    else globalRoot

/-- Environment of one `/sync-action` request: everything the handler
observes from the file system and the dynamic import machinery. -/
structure DispatchEnv where
  projectRoot : String
  pathEnv : PathEnv
  writeConfigExc : Option PyExc
  srcExists : Bool
  componentFileExists : Bool
  importResult : ImportOutcome
  newComponent : InstOutcome

/-- A `/sync-action` request body, already parsed. -/
structure DispatchReq where
  action : String
  parameters : List (String × Json)
  componentPath : Option String

/-- A Flask response: a JSON body and an HTTP status code. -/
structure HttpResp where
  body : Json
  code : Nat

/-- JSON body of the explicit error returns of `sync_action`
(status and message, no traceback). -/
def errBody (msg : String) : Json :=
  .obj [("status", .str "error"), ("message", .str msg)]

/-- JSON body produced by the generic exception handler of `sync_action`
(status, message and full traceback). -/
def excBody (e : PyExc) : Json :=
  .obj [("status", .str "error"), ("message", .str e.msg),
        ("traceback", .str e.trace)]

/-- The unknown-action message, listing the attempted name variants. -/
def unknownActionMsg (action : String) : String :=
  "Unknown action: " ++ action ++ " (tried: " ++
    String.intercalate ", " (possible_names action) ++ ")"

/-- Shallow embedding of the `/sync-action` handler.  The request body has
been parsed; `parameters` is written to the config file (modelled by
`writeConfigExc`, the possible exception of that write), the backend unit
is imported and instantiated fresh, the action name is resolved through
`possible_names`, and the resolved attribute is invoked with no arguments.
Every exception that reaches the surrounding handler is rendered by
`excBody` with HTTP 500. -/
def sync_action (env : DispatchEnv) (req : DispatchReq) : HttpResp :=
  let root := resolveProjectRoot env.projectRoot req.componentPath env.pathEnv
  match env.writeConfigExc with
  | some e => ⟨excBody e, 500⟩
  | none =>
    if ¬env.srcExists then
      ⟨errBody ("src/ directory not found in " ++ root), 500⟩
    else if ¬env.componentFileExists then
      ⟨errBody ("component.py not found in " ++ root ++ "/src"), 500⟩
    else
      match env.importResult with
      | .importError m => ⟨errBody ("Could not import Component: " ++ m), 500⟩
      | .raises e => ⟨excBody e, 500⟩
      | .ok =>
        match env.newComponent with
        | .raises e => ⟨excBody e, 500⟩
        | .ok comp =>
          match resolveMethod comp (possible_names req.action) with
          | none => ⟨errBody (unknownActionMsg req.action), 400⟩
          | some a =>
            if a.truthy && a.isCallable then
              match a.call with
              | .returns r => ⟨r, 200⟩
              | .raises e => ⟨excBody e, 500⟩
            else
              ⟨errBody (unknownActionMsg req.action), 400⟩

/-- The exception, if any, that reaches the generic exception handler of
`sync_action` in a given environment: an exception from the config write,
a non-import-error failure of the import, a failure of instantiation, or
an exception raised by the invoked callable. -/
def raisedExc (env : DispatchEnv) (req : DispatchReq) : Option PyExc :=
  match env.writeConfigExc with
  | some e => some e
  | none =>
    if ¬env.srcExists then none
    else if ¬env.componentFileExists then none
    else
      match env.importResult with
      | .importError _ => none
      | .raises e => some e
      | .ok =>
        match env.newComponent with
        | .raises e => some e
        | .ok comp =>
          match resolveMethod comp (possible_names req.action) with
          | none => none
          | some a =>
            if a.truthy && a.isCallable then
              match a.call with
              | .returns _ => none
              | .raises e => some e
            else none

/-! ## Form state merger (`splitAndFillConfig` / `updateCombinedOutput`) -/

/-- One half of `splitAndFillConfig`: keep, in the order of the persisted
config, the entries whose key is declared by the given schema property
list. -/
def splitPart (keys : List String) (config : List (String × Json)) :
    List (String × Json) :=
  config.filter fun kv => keys.contains kv.1

/-- `splitAndFillConfig`: split a persisted parameter mapping into the
component editor's and the row editor's initial values by key membership
in the respective schema property sets (a key declared by both is
duplicated into both). -/
def splitAndFillConfig (componentKeys rowKeys : List String)
    (config : List (String × Json)) :
    List (String × Json) × List (String × Json) :=
  (splitPart componentKeys config, splitPart rowKeys config)

/-- JavaScript object spread of two objects: the keys of the first in
order (a value overridden by the second object on collision), then the
keys of the second that are not in the first, in order. -/
def jsMerge (a b : List (String × Json)) : List (String × Json) :=
  (a.map fun kv =>
    match alookup b kv.1 with
    | some w => (kv.1, w)
    | none => kv) ++
  b.filter fun kv => (alookup a kv.1).isNone

/-- `updateCombinedOutput`: wrap the spread of the component editor value
and the row editor value (row wins on key collision) in a `parameters`
object. -/
def updateCombinedOutput (componentValue rowValue : List (String × Json)) :
    Json :=
  .obj [("parameters", .obj (jsMerge componentValue rowValue))]

/-! ## Dependency resolver (`checkDependencies`) -/

/-- Reading a top-level key from a form-state object (`values[depField]`):
`undefined` when absent. -/
def jsGetL (values : List (String × Json)) (k : String) : Json :=
  (alookup values k).getD .undefined

/-- JavaScript strict equality on the values that flow through
`checkDependencies`.  Primitives compare by value; arrays and objects
compare by reference, and the expected value (from the schema document)
and the actual value (from a fresh editor read) are never the same
reference, so container comparisons are `false`. -/
def jsStrictEq : Json → Json → Bool
  | .null, .null => true
  | .undefined, .undefined => true
  | .bool a, .bool b => a == b
  | .num a, .num b => a == b
  | .str a, .str b => a == b
  | _, _ => false

/-- The `checkDependencies` closure: the field is shown exactly when every
`path : expectedValue` entry of its dependencies map strictly matches the
current form value at that key. -/
def checkDependencies (dependencies : List (String × Json))
    (values : List (String × Json)) : Bool :=
  dependencies.all fun kv => jsStrictEq (jsGetL values kv.1) kv.2

/-- JavaScript assignment of a key in a form-state object: overwrite in
place when present, append otherwise. -/
def jsSet : List (String × Json) → String → Json → List (String × Json)
  | [], k, v => [(k, v)]
  | (k', v') :: rest, k, v =>
    if k' = k then (k, v) :: rest else (k', v') :: jsSet rest k v

/-! ## Schema model and normalizer (`preprocessSchema`) -/

/-- The `options.async` descriptor of a field. -/
structure AsyncOpt where
  action : Option String := none
  label : Option String := none
  autoload : Json := .undefined

/-- The free-form `options` bag of a schema field.  `isButton`,
`actionTag`, `labelTag`, `formatTag`, `hiddenInput` and `hasAsync` model
the private marker keys written by `preprocessSchema`; `xKbcGroup` models
an `x-kbc-group` entry stored inside `options` (which, as the proofs show,
the group classifier never reads). -/
structure FieldOpts where
  async : Option AsyncOpt := none
  dependencies : Option (List (String × Json)) := none
  xKbcGroup : Option String := none
  isButton : Bool := false
  actionTag : Option String := none
  labelTag : Option String := none
  formatTag : Option String := none
  hiddenInput : Bool := false
  hasAsync : Bool := false

/-- A schema field declaration.  `xKbcGroup` models an `x-kbc-group` key
written directly on the field; `properties` is present exactly when the
declaration carries a `properties` object. -/
inductive Field where
  | mk (type : String) (title : Option String) (format : Option String)
       (xKbcGroup : Option String) (propertyOrder : Option Int)
       (required : Bool) (defaultVal : Option Json) (uniqueItems : Bool)
       (options : Option FieldOpts)
       (properties : Option (List (String × Field)))

def Field.type : Field → String
  | .mk t _ _ _ _ _ _ _ _ _ => t

def Field.title : Field → Option String
  | .mk _ ti _ _ _ _ _ _ _ _ => ti

def Field.format : Field → Option String
  | .mk _ _ fo _ _ _ _ _ _ _ => fo

def Field.xKbcGroup : Field → Option String
  | .mk _ _ _ xg _ _ _ _ _ _ => xg

def Field.propertyOrder : Field → Option Int
  | .mk _ _ _ _ po _ _ _ _ _ => po

def Field.required : Field → Bool
  | .mk _ _ _ _ _ r _ _ _ _ => r

def Field.defaultVal : Field → Option Json
  | .mk _ _ _ _ _ _ d _ _ _ => d

def Field.uniqueItems : Field → Bool
  | .mk _ _ _ _ _ _ _ u _ _ => u

def Field.options : Field → Option FieldOpts
  | .mk _ _ _ _ _ _ _ _ o _ => o

def Field.properties : Field → Option (List (String × Field))
  | .mk _ _ _ _ _ _ _ _ _ p => p

def Field.withOptions : Field → Option FieldOpts → Field
  | .mk t ti fo xg po r d u _ p, o => .mk t ti fo xg po r d u o p

def Field.withUnique : Field → Bool → Field
  | .mk t ti fo xg po r d _ o p, u => .mk t ti fo xg po r d u o p

def Field.withProperties : Field → Option (List (String × Field)) → Field
  | .mk t ti fo xg po r d u o _, p => .mk t ti fo xg po r d u o p

/-- Truthiness of an optional string: absent and empty strings are falsy. -/
def truthyStr : Option String → Option String
  | some s => if s = "" then none else some s
  | none => none

/-- The JavaScript string default idiom: the left operand when truthy,
else the right. -/
def jsOrStr (o : Option String) (d : String) : String :=
  match truthyStr o with
  | some s => s
  | none => d

/-- The format-to-action conversion applied to button fields: every hyphen
followed by a lower-case letter is replaced by that letter upper-cased,
scanning left to right and resuming after each replacement. -/
def camelize : List Char → List Char
  | '-' :: c :: rest =>
    if c.isLower then c.toUpper :: camelize rest
    else '-' :: camelize (c :: rest)
  | c :: rest => c :: camelize rest
  | [] => []

def camelizeFormat (s : String) : String := String.mk (camelize s.data)

/-- The truthy `options.async.action` of a field, if any. -/
def asyncActionOf (f : Field) : Option String :=
  match f.options with
  | some o =>
    match o.async with
    | some a => truthyStr a.action
    | none => none
  | none => none

/-- The truthy `options.async.label` of a field, if any. -/
def asyncLabelOf (f : Field) : Option String :=
  match f.options with
  | some o =>
    match o.async with
    | some a => truthyStr a.label
    | none => none
  | none => none

/-- Format branch of the top-level button rewrite: derive the action from
a truthy `format`, and use the label `Test Connection` exactly when the
derived action is `testConnection`. -/
def buttonFormatCaseTop (f : Field) (label0 : String) : String × String :=
  match truthyStr f.format with
  | some fmt =>
    let act := camelizeFormat fmt
    (act, if act = "testConnection" then "Test Connection" else label0)
  | none => ("unknown", label0)

/-- Format branch of the nested button rewrite: derive the action from a
truthy `format`; the label is left at its default. -/
def buttonFormatCaseNested (f : Field) : String :=
  match truthyStr f.format with
  | some fmt => camelizeFormat fmt
  | none => "unknown"

/-- The top-level `type: button` rewrite of `preprocessSchema`: the field
becomes a hidden string field marked as a button, with action and label
chosen by the async descriptor first and the format second. -/
def preprocessButtonTop (f : Field) : Field :=
  let label0 := jsOrStr f.title "Button"
  let al : String × String :=
    match asyncActionOf f with
    | some act => (act, (asyncLabelOf f).getD label0)
    | none => buttonFormatCaseTop f label0
  .mk "string" (some (jsOrStr f.title "")) none none f.propertyOrder false
    (some (.str "")) false
    (some { isButton := true, actionTag := some al.1, labelTag := some al.2,
            formatTag := f.format, hiddenInput := true }) none

/-- The nested (depth-one) `type: button` rewrite of `preprocessSchema`:
identical to the top-level rewrite except that the format branch never
rewrites the label. -/
def preprocessButtonNested (f : Field) : Field :=
  let label0 := jsOrStr f.title "Button"
  let al : String × String :=
    match asyncActionOf f with
    | some act => (act, (asyncLabelOf f).getD label0)
    | none => (buttonFormatCaseNested f, label0)
  .mk "string" (some (jsOrStr f.title "")) none none f.propertyOrder false
    (some (.str "")) false
    (some { isButton := true, actionTag := some al.1, labelTag := some al.2,
            formatTag := f.format, hiddenInput := true }) none

/-- Whether a field carries an `options.async` descriptor (an object, so
truthy whenever present). -/
def hasAsyncDescriptor (f : Field) : Bool :=
  match f.options with
  | some o => o.async.isSome
  | none => false

/-- Mark a select field that carries an async descriptor. -/
def markAsync (f : Field) : Field :=
  match f.options with
  | some o => f.withOptions (some { o with hasAsync := true })
  | none => f

/-- Mark an array field with select formatting as a unique-items
multiselect, creating the options bag when absent. -/
def markMultiselect (f : Field) : Field :=
  (f.withOptions (some (f.options.getD {}))).withUnique true

/-- The per-property body of `preprocessSchema`: rewrite a top-level
button; otherwise mark async selects and multiselect arrays, and rewrite
the immediate button children of an object field.  Grandchildren are
never visited. -/
def preprocessTopField (f : Field) : Field :=
  if f.type = "button" then preprocessButtonTop f
  else
    let f1 := if f.format = some "select" ∧ hasAsyncDescriptor f then markAsync f else f
    let f2 := if f1.type = "array" ∧ f1.format = some "select" then markMultiselect f1 else f1
    match f2.properties with
    | some ps =>
      if f2.type = "object" then
        f2.withProperties (some (ps.map fun kv =>
          (kv.1, if kv.2.type = "button" then preprocessButtonNested kv.2 else kv.2)))
      else f2
    | none => f2

/-- `preprocessSchema`, acting on the top-level property list of a deep
clone of the schema. -/
def preprocessSchema (props : List (String × Field)) : List (String × Field) :=
  props.map fun kv => (kv.1, preprocessTopField kv.2)

/-! ## Field group classifier (`detectFieldGroups`) -/

/-- The per-property group choice inside `detectFieldGroups`: the truthy
`x-kbc-group` key written directly on the property wins; otherwise a set
`propertyOrder` is mapped through the 1 to 4, 5 to 7, and at least 8
ranges; otherwise (including an order outside every range) the group is
`Configuration`. -/
def classifyField (f : Field) : String :=
  match truthyStr f.xKbcGroup with
  | some g => g
  | none =>
    match f.propertyOrder with
    | some order =>
      if 1 ≤ order ∧ order ≤ 4 then "Connection"
      else if 5 ≤ order ∧ order ≤ 7 then "Data Selection"
      else if 8 ≤ order then "Destination"
      else "Configuration"
    | none => "Configuration"

/-- Append a key to the list held under a group name, creating the group
at the end on first use (JavaScript object insertion order). -/
def addToGroup : List (String × List String) → String → String →
    List (String × List String)
  | [], g, k => [(g, [k])]
  | (g', ks) :: rest, g, k =>
    if g' = g then (g', ks ++ [k]) :: rest
    else (g', ks) :: addToGroup rest g k

/-- `detectFieldGroups`: fold the top-level properties in schema order,
assigning each key to its classified group. -/
def detectFieldGroups (props : List (String × Field)) :
    List (String × List String) :=
  props.foldl (fun groups kv => addToGroup groups (classifyField kv.2) kv.1) []

/-! ## Async option loader: debounce (`setupAsyncField`)

The watch callback for one `(field, watched-field)` timer key clears any
pending timer for that key and schedules a new one at the change time
plus the fixed delay (1000 ms).  On the single-threaded timeline this
means: a timer scheduled by a change at time `t` fires at `t + delay`
unless another change to the watched field arrives strictly before
`t + delay`; the fire invokes `loadOptions`, which reads the form state
at fire time. -/

/-- Fire times produced by a sorted sequence of change times to one
watched field: a change cancels the pending timer when it arrives inside
the delay window, and every surviving timer fires at its scheduled
time. -/
def debounceFires (delay : Nat) : List Nat → List Nat
  | [] => []
  | [t] => [t + delay]
  | t1 :: t2 :: rest =>
    if t2 < t1 + delay then debounceFires delay (t2 :: rest)
    else (t1 + delay) :: debounceFires delay (t2 :: rest)

/-- The form states read by the reloads: `loadOptions` calls the editor
value getter at fire time. -/
def debounceReloads (delay : Nat) (formState : Nat → List (String × Json))
    (changes : List Nat) : List (List (String × Json)) :=
  (debounceFires delay changes).map formState

/-! ## Async option loader: response handling (`loadOptions`) -/

/-- Response-shape selection of `loadOptions`: a truthy `options` key
first, then a truthy `data` key, then the response itself when it is an
array, else the initial empty list. -/
def pickOptionsVal (result : Json) : Json :=
  if jsTruthy (jsGet result "options") then jsGet result "options"
  else if jsTruthy (jsGet result "data") then jsGet result "data"
  else
    match result with
    | .arr _ => result
    | _ => .arr []

/-- JavaScript `typeof x` equals `object`: true for objects, arrays and
`null`. -/
def jsTypeofObject : Json → Bool
  | .obj _ => true
  | .arr _ => true
  | .null => true
  | _ => false

/-- Per-element extraction of `loadOptions`: an element typed `object`
contributes its `value` and `label` properties (reading a property of
`null` throws, modelled by `none`); any other element is used as both
value and label. -/
def elemPair (o : Json) : Option (Json × Json) :=
  if jsTypeofObject o then
    match o with
    | .null => none
    | _ => some (jsGet o "value", jsGet o "label")
  else some (o, o)

/-- Extract all option elements; `none` when any element throws. -/
def extractPairs : List Json → Option (List (Json × Json))
  | [] => some []
  | o :: rest =>
    match elemPair o with
    | some p =>
      match extractPairs rest with
      | some ps => some (p :: ps)
      | none => none
    | none => none

/-- The state of the select control after a load: its option list (value
and label pairs) and its disabled flag. -/
structure SelectState where
  opts : List (Json × Json)
  disabled : Bool

/-- The empty unselected option prepended for non-required fields. -/
def emptyOption : Json × Json := (.str "", .str "-- Select --")

/-- One complete `loadOptions` cycle over the select element, given the
previous option list, the field's `required` flag, and the action
outcome (`none` models a failed `callSyncAction`).  A non-empty returned
array replaces the option list (with the empty option prepended when not
required); an empty array, a non-array selection, or any thrown error
leaves the previous options; the control is re-enabled on every path. -/
def loadOptionsStep (prev : List (Json × Json)) (required : Bool)
    (outcome : Option Json) : SelectState :=
  match outcome with
  | none => ⟨prev, false⟩
  | some result =>
    match pickOptionsVal result with
    | .arr xs =>
      if xs.isEmpty then ⟨prev, false⟩
      else
        match extractPairs xs with
        | some pairs =>
          ⟨(if !required then [emptyOption] else []) ++ pairs, false⟩
        | none => ⟨prev, false⟩
    | _ => ⟨prev, false⟩

/-! ## Schema upload endpoint (`load_schemas`) -/

/-- The process-wide mutable schema state: the browser-uploaded component
schema, row schema, and component name (`null` models Python `None`; a
non-string uploaded name is abstracted by its rendered string, the only
form in which it is observable). -/
structure SchemaStore where
  loadedComponentSchema : Json
  loadedRowSchema : Json
  loadedComponentName : String

/-- A parsed `/api/load-schemas` request body: `null` models an absent or
null schema key (the dictionary get default), and `none` models an absent
`componentName` key. -/
structure LoadSchemasBody where
  componentSchema : Json
  rowSchema : Json
  componentName : Option String

/-- The `/api/load-schemas` handler: assign all three globals from the
request body, then validate, returning 400 when either schema is falsy
and a success message otherwise.  The state result is the state after the
handler, on every path. -/
def load_schemas (_st : SchemaStore) (body : LoadSchemasBody) :
    SchemaStore × HttpResp :=
  let nm := body.componentName.getD "Unknown"
  let st' : SchemaStore := ⟨body.componentSchema, body.rowSchema, nm⟩
  if !pyTruthy body.componentSchema || !pyTruthy body.rowSchema then
    (st', ⟨.obj [("error", .str "Missing componentSchema or rowSchema")], 400⟩)
  else
    (st', ⟨.obj [("status", .str "success"),
                 ("message", .str ("Schemas loaded for " ++ nm))], 200⟩)

/-! ## Observers and concrete instances used by the verification -/

/-- Left-biased choice on options, the lookup semantics of list
concatenation. -/
def optOr {α : Type} : Option α → Option α → Option α
  | some v, _ => some v
  | none, o => o

/-- The state on which `load_schemas` leaves the process after any
request with the given body. -/
def storeFromBody (body : LoadSchemasBody) : SchemaStore :=
  ⟨body.componentSchema, body.rowSchema, body.componentName.getD "Unknown"⟩

/-- The button-action marker of a processed field. -/
def fieldActionTag (f : Field) : Option String :=
  match f.options with
  | some o => o.actionTag
  | none => none

/-- The button-label marker of a processed field. -/
def fieldLabelTag (f : Field) : Option String :=
  match f.options with
  | some o => o.labelTag
  | none => none

/-- The button marker of a processed field. -/
def fieldIsButton (f : Field) : Bool :=
  match f.options with
  | some o => o.isButton
  | none => false

/-- The hidden-input marker of a processed field. -/
def fieldHidden (f : Field) : Bool :=
  match f.options with
  | some o => o.hiddenInput
  | none => false

/-- The action marker of the field at `k2` nested inside the object field
at `k` of a processed schema. -/
def nestedActionTag (props : List (String × Field)) (k k2 : String) :
    Option String :=
  match alookup props k with
  | some f =>
    match f.properties with
    | some ps =>
      match alookup ps k2 with
      | some g => fieldActionTag g
      | none => none
    | none => none
  | none => none

/-- The label marker of the field at `k2` nested inside the object field
at `k` of a processed schema. -/
def nestedLabelTag (props : List (String × Field)) (k k2 : String) :
    Option String :=
  match alookup props k with
  | some f =>
    match f.properties with
    | some ps =>
      match alookup ps k2 with
      | some g => fieldLabelTag g
      | none => none
    | none => none
  | none => none

/-- Modelled from the spec: the stated button action resolution order —
`options.async.action` if present, else the camel-cased `format`, else the
literal string `unknown`.  Stated separately from the embedded
`preprocessSchema` so that the two can be compared. -/
def resolveActionSpec (f : Field) : String :=
  match asyncActionOf f with
  | some act => act
  | none =>
    match truthyStr f.format with
    | some fmt => camelizeFormat fmt
    | none => "unknown"

/-- A path environment for requests that carry no component path. -/
def goodPathEnv : PathEnv := ⟨false, false, ""⟩

/-- A dispatch environment in which every step before name resolution
succeeds and instantiation yields the given backend unit. -/
def goodEnv (comp : BackendUnit) : DispatchEnv :=
  ⟨"/proj", goodPathEnv, none, true, true, .ok, .ok comp⟩

/-- A callable, truthy method attribute returning a fixed document. -/
def tcAttr : PyAttr := ⟨true, true, .returns (.str "ok")⟩

/-- A truthy but non-callable attribute (for example a string field of the
component object). -/
def stubAttr : PyAttr := ⟨true, false, .returns .null⟩

/-- A backend unit exposing only a callable `test_connection`. -/
def compOnlySnake : BackendUnit := ⟨[("test_connection", tcAttr)]⟩

/-- A backend unit with a non-callable attribute under the literal action
name and a callable method under the snake-case name. -/
def compShadowed : BackendUnit :=
  ⟨[("testConnection", stubAttr), ("test_connection", tcAttr)]⟩

/-- A backend unit with no attributes at all. -/
def compEmpty : BackendUnit := ⟨[]⟩

def reqTestConnection : DispatchReq := ⟨"testConnection", [], none⟩

def reqDoesNotExist : DispatchReq := ⟨"doesNotExist", [], none⟩

/-- An environment in which importing the `Component` class raises
an ImportError. -/
def importErrEnv : DispatchEnv :=
  ⟨"/proj", goodPathEnv, none, true, true, .importError "boom", .ok compEmpty⟩

/-- The persisted parameter set of the round-trip example. -/
def cfgXY : List (String × Json) := [("x", .num 1), ("y", .num 2)]

/-- A nested button declaration with no async descriptor and format
`test-connection`. -/
def nestedButtonField : Field :=
  .mk "button" none (some "test-connection") none none false none false none none

/-- An object field whose single child is `nestedButtonField`. -/
def c5OuterField : Field :=
  .mk "object" none none none none false none false none
    (some [("btn", nestedButtonField)])

def c5Schema : List (String × Field) := [("outer", c5OuterField)]

/-- The same button declaration at the top level of a schema. -/
def topButtonField : Field :=
  .mk "button" none (some "test-connection") none none false none false none none

/-- A property with a group tag inside its `options` bag and a property
order in the Connection range. -/
def c6Field : Field :=
  .mk "string" none none none (some 1) false none false
    (some { xKbcGroup := some "MyGroup" }) none

/-- A property with no classification data at all. -/
def confField : Field :=
  .mk "string" none none none none false none false none none

/-- Concrete dependency map and form states for the visibility claims. -/
def depsMode : List (String × Json) := [("mode", .str "advanced")]

def stateBasic : List (String × Json) := [("mode", .str "basic")]

/-- Previous option list of the select control in the loader examples. -/
def prevOpts : List (Json × Json) := [(.str "a", .str "a")]

/-- A successful response carrying an empty options array. -/
def emptyOptionsResp : Json := .obj [("options", .arr [])]

/-- A schema store holding a previously uploaded schema pair. -/
def st0C10 : SchemaStore :=
  ⟨.obj [("title", .str "old")], .obj [("title", .str "oldRow")], "old"⟩

/-- An upload body with a component schema but no row schema. -/
def bodyBad : LoadSchemasBody := ⟨.obj [("title", .str "new")], .null, none⟩

/-- Whether a JSON value is the given string, a decidable observer used to
compare concrete option lists. -/
def jsonIsStr (j : Json) (s : String) : Bool :=
  match j with
  | .str t => t == s
  | _ => false

/-- The value component of the first option of a select state. -/
def firstOptionValue (st : SelectState) : Json :=
  (st.opts.headD (.null, .null)).1

/-! ## Shared lemmas about association-list lookup -/

theorem alookup_append {α : Type} (l1 l2 : List (String × α)) (k : String) :
    alookup (l1 ++ l2) k = optOr (alookup l1 k) (alookup l2 k) := by
  induction l1 with
  | nil => simp [alookup, optOr]
  | cons hd tl ih =>
    obtain ⟨k', v⟩ := hd
    by_cases h : k' = k
    · simp [alookup, h, optOr]
    · simp [alookup, h, ih]

theorem alookup_filterKeys {α : Type} (p : String → Bool)
    (l : List (String × α)) (k : String) :
    alookup (l.filter fun kv => p kv.1) k =
      if p k then alookup l k else none := by
  induction l with
  | nil => simp [alookup]
  | cons hd tl ih =>
    obtain ⟨k', v⟩ := hd
    by_cases hk : k' = k
    · subst hk
      by_cases hp : p k' <;> simp [alookup, hp, ih]
    · by_cases hp : p k' <;> simp [alookup, hp, hk, ih]

theorem alookup_mapOverride (a b : List (String × Json)) (k : String) :
    alookup (a.map fun kv =>
      match alookup b kv.1 with
      | some w => (kv.1, w)
      | none => kv) k =
    (alookup a k).map fun v => (alookup b k).getD v := by
  induction a with
  | nil => simp [alookup]
  | cons hd tl ih =>
    obtain ⟨k', v⟩ := hd
    by_cases hk : k' = k
    · subst hk
      cases hb : alookup b k' <;> simp [alookup, hb]
    · cases hb : alookup b k' <;> simp [alookup, hb, hk, ih]

theorem alookup_jsMerge (a b : List (String × Json)) (k : String) :
    alookup (jsMerge a b) k = optOr (alookup b k) (alookup a k) := by
  unfold jsMerge
  rw [alookup_append, alookup_mapOverride,
    alookup_filterKeys (fun x => (alookup a x).isNone) b k]
  cases ha : alookup a k <;> cases hb : alookup b k <;>
    simp [ha, hb, optOr]

theorem alookup_jsSet (s : List (String × Json)) (f : String) (v : Json)
    (k : String) :
    alookup (jsSet s f v) k = if f = k then some v else alookup s k := by
  induction s with
  | nil => simp [jsSet, alookup]
  | cons hd tl ih =>
    obtain ⟨k', v'⟩ := hd
    by_cases hf : k' = f
    · subst hf
      by_cases hk : k' = k <;> simp [jsSet, alookup, hk]
    · by_cases hk : k' = k
      · subst hk
        have : ¬f = k' := fun h => hf h.symm
        simp [jsSet, alookup, hf, this]
      · simp [jsSet, alookup, hf, hk, ih]

theorem alookup_mapSnd {α β : Type} (g : α → β) (l : List (String × α))
    (k : String) :
    alookup (l.map fun kv => (kv.1, g kv.2)) k = (alookup l k).map g := by
  induction l with
  | nil => simp [alookup]
  | cons hd tl ih =>
    obtain ⟨k', v⟩ := hd
    by_cases hk : k' = k <;> simp [alookup, hk, ih]

theorem resolveMethod_mem (comp : BackendUnit) (ns : List String)
    (a : PyAttr) (h : resolveMethod comp ns = some a) :
    ∃ n ∈ ns, alookup comp.attrs n = some a := by
  induction ns with
  | nil => simp [resolveMethod] at h
  | cons n rest ih =>
    unfold resolveMethod at h
    cases hl : alookup comp.attrs n with
    | some b =>
      rw [hl] at h
      exact ⟨n, by simp, by rw [hl]; exact h⟩
    | none =>
      rw [hl] at h
      obtain ⟨m, hm, hma⟩ := ih h
      exact ⟨m, by simp [hm], hma⟩

/-! ## C1: action name resolution -/

/-- C1, counterexample.  The claim says the dispatcher resolves to the
first name variant that exists as a callable attribute; against a unit
whose `testConnection` attribute exists but is not callable while
`test_connection` is callable, the claim predicts invocation of
`test_connection` (yielding the 200 response), but the dispatcher stops
at the existing non-callable attribute and fails with the unknown-action
response. -/
theorem sync_action_first_callable_counterexample :
    sync_action (goodEnv compShadowed) reqTestConnection =
      ⟨errBody (unknownActionMsg "testConnection"), 400⟩ ∧
    ((sync_action (goodEnv compShadowed) reqTestConnection).code == 200) =
      false :=
  ⟨rfl, by decide⟩

/-- C1, amended: the dispatcher tries the literal action, its snake-case
conversion, and its hyphen conversion in that order, and resolves to the
first variant that exists as an attribute, callable or not; the resolved
attribute is invoked only when it is truthy and callable, and otherwise
the dispatch fails with the unknown-action response.  When the unit has
only a callable `test_connection`, dispatching `testConnection` invokes
it. -/
theorem sync_action_resolution_amended :
    (∀ comp n rest a, alookup (BackendUnit.attrs comp) n = some a →
      resolveMethod comp (n :: rest) = some a) ∧
    (∀ comp n rest, alookup (BackendUnit.attrs comp) n = none →
      resolveMethod comp (n :: rest) = resolveMethod comp rest) ∧
    (∀ env req comp a r,
      env.writeConfigExc = none → env.srcExists = true →
      env.componentFileExists = true → env.importResult = .ok →
      env.newComponent = .ok comp →
      resolveMethod comp (possible_names req.action) = some a →
      a.truthy = true → a.isCallable = true → a.call = .returns r →
      sync_action env req = ⟨r, 200⟩) ∧
    (∀ env req comp a,
      env.writeConfigExc = none → env.srcExists = true →
      env.componentFileExists = true → env.importResult = .ok →
      env.newComponent = .ok comp →
      resolveMethod comp (possible_names req.action) = some a →
      (a.truthy && a.isCallable) = false →
      sync_action env req = ⟨errBody (unknownActionMsg req.action), 400⟩) ∧
    sync_action (goodEnv compOnlySnake) reqTestConnection = ⟨.str "ok", 200⟩ := by
  refine ⟨?_, ?_, ?_, ?_, rfl⟩
  · intro comp n rest a h
    simp [resolveMethod, h]
  · intro comp n rest h
    simp only [resolveMethod, h]
  · intro env req comp a r h1 h2 h3 h4 h5 h6 h7 h8 h9
    obtain ⟨pr, pe, wc, se, cf, ir, nc⟩ := env
    simp only at h1 h2 h3 h4 h5
    subst h1 h2 h3 h4 h5
    simp [sync_action, h6, h7, h8, h9]
  · intro env req comp a h1 h2 h3 h4 h5 h6 h7
    obtain ⟨pr, pe, wc, se, cf, ir, nc⟩ := env
    simp only at h1 h2 h3 h4 h5
    subst h1 h2 h3 h4 h5
    simp [sync_action, h6, h7]

/-- C1, amended, witness: instantiates the invocation branch on the unit
that exposes only a callable `test_connection`. -/
theorem sync_action_resolution_amended_witness :
    sync_action (goodEnv compOnlySnake) reqTestConnection = ⟨.str "ok", 200⟩ :=
  sync_action_resolution_amended.2.2.1 (goodEnv compOnlySnake)
    reqTestConnection compOnlySnake tcAttr (.str "ok")
    rfl rfl rfl rfl rfl rfl rfl rfl rfl

/-! ## C2: exception handling of the dispatcher -/

/-- C2, counterexample.  The claim says any exception raised during the
backend-unit load is returned as a structured failure containing a
traceback; an import error raised by the import is caught by a dedicated
handler that reports status and message only, with no traceback field. -/
theorem sync_action_traceback_counterexample :
    sync_action importErrEnv reqTestConnection =
      ⟨errBody "Could not import Component: boom", 500⟩ ∧
    jsGet (sync_action importErrEnv reqTestConnection).body "traceback" =
      .undefined :=
  ⟨rfl, rfl⟩

/-- C2, amended: every exception that reaches the generic handler —
from the config persist, a non-import-error failure of the backend-unit
load, instantiation, or the invoked callable — is returned as the
structured 500 body carrying status, message and the full traceback, and
never propagates; an import error of the backend-unit load is caught
separately and reported with status and message but no traceback. -/
theorem sync_action_catches_exceptions :
    (∀ env req e, raisedExc env req = some e →
      sync_action env req = ⟨excBody e, 500⟩) ∧
    (∀ e, jsGet (excBody e) "status" = .str "error" ∧
      jsGet (excBody e) "message" = .str e.msg ∧
      jsGet (excBody e) "traceback" = .str e.trace) ∧
    (∀ env req m,
      env.writeConfigExc = none → env.srcExists = true →
      env.componentFileExists = true → env.importResult = .importError m →
      sync_action env req =
        ⟨errBody ("Could not import Component: " ++ m), 500⟩) := by
  refine ⟨?_, ?_, ?_⟩
  · intro env req e h
    obtain ⟨pr, pe, wc, se, cf, ir, nc⟩ := env
    cases wc with
    | some e0 =>
      simp [raisedExc] at h
      subst h
      rfl
    | none =>
      cases se with
      | false => simp [raisedExc] at h
      | true =>
        cases cf with
        | false => simp [raisedExc] at h
        | true =>
          cases ir with
          | importError m => simp [raisedExc] at h
          | raises e0 =>
            simp [raisedExc] at h
            subst h
            rfl
          | ok =>
            cases nc with
            | raises e0 =>
              simp [raisedExc] at h
              subst h
              rfl
            | ok comp =>
              cases hr : resolveMethod comp (possible_names req.action) with
              | none => simp [raisedExc, hr] at h
              | some a =>
                cases hca : a.truthy && a.isCallable with
                | false => simp [raisedExc, hr, hca] at h
                | true =>
                  cases hcall : a.call with
                  | returns r => simp [raisedExc, hr, hca, hcall] at h
                  | raises e0 =>
                    simp [raisedExc, hr, hca, hcall] at h
                    subst h
                    simp [sync_action, hr, hca, hcall]
  · intro e
    exact ⟨rfl, rfl, rfl⟩
  · intro env req m h1 h2 h3 h4
    obtain ⟨pr, pe, wc, se, cf, ir, nc⟩ := env
    simp only at h1 h2 h3 h4
    subst h1 h2 h3 h4
    rfl

/-- C2, amended, witness: a callable that raises is reported through the
generic handler with the full traceback body. -/
theorem sync_action_catches_exceptions_witness :
    sync_action
      (goodEnv ⟨[("run", ⟨true, true, .raises ⟨"bad", "trace"⟩⟩)]⟩)
      ⟨"run", [], none⟩ =
      ⟨excBody ⟨"bad", "trace"⟩, 500⟩ :=
  sync_action_catches_exceptions.1
    (goodEnv ⟨[("run", ⟨true, true, .raises ⟨"bad", "trace"⟩⟩)]⟩)
    ⟨"run", [], none⟩ ⟨"bad", "trace"⟩ rfl

/-! ## C9: unknown-action failure -/

/-- C9: when no name variant of the action resolves to a truthy callable
attribute of the backend unit, the dispatcher returns the 400 failure
whose message lists exactly the three attempted variants: the literal
action, its snake-case conversion, and its hyphen conversion; for
`doesNotExist` the variants are as computed below. -/
theorem sync_action_unknown_action :
    (∀ env req comp,
      env.writeConfigExc = none → env.srcExists = true →
      env.componentFileExists = true → env.importResult = .ok →
      env.newComponent = .ok comp →
      (∀ n a, n ∈ possible_names req.action →
        alookup (BackendUnit.attrs comp) n = some a →
        (a.truthy && a.isCallable) = false) →
      sync_action env req = ⟨errBody (unknownActionMsg req.action), 400⟩) ∧
    (∀ action, possible_names action =
      [action, camel_to_snake action, hyphen_to_underscore action]) ∧
    possible_names "doesNotExist" =
      ["doesNotExist", "does_not_exist", "doesNotExist"] ∧
    unknownActionMsg "doesNotExist" =
      "Unknown action: doesNotExist (tried: doesNotExist, does_not_exist, doesNotExist)" := by
  refine ⟨?_, fun _ => rfl, by decide, by decide⟩
  intro env req comp h1 h2 h3 h4 h5 hnone
  obtain ⟨pr, pe, wc, se, cf, ir, nc⟩ := env
  simp only at h1 h2 h3 h4 h5
  subst h1 h2 h3 h4 h5
  cases hr : resolveMethod comp (possible_names req.action) with
  | none => simp [sync_action, hr]
  | some a =>
    obtain ⟨n, hn, hna⟩ := resolveMethod_mem comp (possible_names req.action) a hr
    have hfalse := hnone n a hn hna
    simp [sync_action, hr, hfalse]

/-- C9, witness: dispatching `doesNotExist` against a unit with no
attributes yields the unknown-action failure. -/
theorem sync_action_unknown_action_witness :
    sync_action (goodEnv compEmpty) reqDoesNotExist =
      ⟨errBody (unknownActionMsg "doesNotExist"), 400⟩ :=
  sync_action_unknown_action.1 (goodEnv compEmpty) reqDoesNotExist compEmpty
    rfl rfl rfl rfl rfl
    (fun n a _ h => by simp [compEmpty, alookup] at h)

/-! ## C3: split and merge round trip -/

/-- C3: whenever every key of the persisted parameter set is declared by
the component schema or by the row schema, splitting it into the two
editors' initial values and remerging with row-over-component precedence
reproduces the original mapping at every key; the spec's two concrete
examples are instances. -/
theorem splitAndFillConfig_roundTrip :
    (∀ config componentKeys rowKeys,
      (∀ k, (alookup config k).isSome = true →
        (k ∈ componentKeys ∨ k ∈ rowKeys)) →
      ∀ k,
        alookup (jsMerge (splitAndFillConfig componentKeys rowKeys config).1
          (splitAndFillConfig componentKeys rowKeys config).2) k =
        alookup config k) ∧
    updateCombinedOutput (splitAndFillConfig ["x"] ["y"] cfgXY).1
      (splitAndFillConfig ["x"] ["y"] cfgXY).2 =
      .obj [("parameters", .obj cfgXY)] ∧
    jsMerge [("a", .num 1)] [("a", .num 2), ("b", .num 3)] =
      [("a", .num 2), ("b", .num 3)] := by
  refine ⟨?_, rfl, rfl⟩
  intro config componentKeys rowKeys hcov k
  simp only [splitAndFillConfig]
  rw [alookup_jsMerge]
  unfold splitPart
  rw [alookup_filterKeys (fun x => componentKeys.contains x) config k,
    alookup_filterKeys (fun x => rowKeys.contains x) config k]
  cases hc : alookup config k with
  | none =>
    by_cases h1 : k ∈ rowKeys <;> by_cases h2 : k ∈ componentKeys <;>
      simp [h1, h2, hc, optOr]
  | some v =>
    have hmem := hcov k (by rw [hc]; rfl)
    by_cases h1 : k ∈ rowKeys
    · simp [h1, hc, optOr]
    · have h2 : k ∈ componentKeys := by
        rcases hmem with h | h
        · exact h
        · exact absurd h h1
      simp [h1, h2, hc, optOr]

/-- C3, witness: the round trip evaluated at the spec's example, at key
`x`. -/
theorem splitAndFillConfig_roundTrip_witness :
    alookup (jsMerge (splitAndFillConfig ["x"] ["y"] cfgXY).1
      (splitAndFillConfig ["x"] ["y"] cfgXY).2) "x" = alookup cfgXY "x" :=
  splitAndFillConfig_roundTrip.1 cfgXY ["x"] ["y"]
    (fun k h => by
      by_cases h1 : "x" = k
      · exact Or.inl (by subst h1; decide)
      · by_cases h2 : "y" = k
        · exact Or.inr (by subst h2; decide)
        · exfalso
          simp [cfgXY, alookup, h1, h2] at h) "x"

/-! ## C4: dependency visibility -/

/-- Visibility depends only on the lookup view of the form state. -/
theorem checkDependencies_congr (deps : List (String × Json))
    (s1 s2 : List (String × Json))
    (h : ∀ k, alookup s1 k = alookup s2 k) :
    checkDependencies deps s1 = checkDependencies deps s2 := by
  unfold checkDependencies
  have hkv : ∀ kv : String × Json,
      jsStrictEq (jsGetL s1 kv.1) kv.2 = jsStrictEq (jsGetL s2 kv.1) kv.2 :=
    fun kv => by simp only [jsGetL, h kv.1]
  induction deps with
  | nil => rfl
  | cons hd tl ih => simp [List.all_cons, hkv hd, ih]

/-- C4: a field's computed visibility is true exactly when every entry of
its dependencies map strictly matches the live form value at its key; the
computation depends only on the current form state, and setting a watched
field away from its stored value and back restores the original
visibility verdict. -/
theorem checkDependencies_visibility :
    (∀ deps values, checkDependencies deps values = true ↔
      ∀ kv ∈ deps, jsStrictEq (jsGetL values kv.1) kv.2 = true) ∧
    (∀ deps s1 s2, (∀ k, alookup s1 k = alookup s2 k) →
      checkDependencies deps s1 = checkDependencies deps s2) ∧
    (∀ deps s f v w, alookup s f = some w →
      checkDependencies deps (jsSet (jsSet s f v) f w) =
        checkDependencies deps s) := by
  refine ⟨?_, checkDependencies_congr, ?_⟩
  · intro deps values
    simp [checkDependencies, List.all_eq_true]
  · intro deps s f v w hw
    apply checkDependencies_congr
    intro k
    rw [alookup_jsSet, alookup_jsSet]
    by_cases hk : f = k
    · subst hk
      simp [hw]
    · simp [hk]

/-- C4, witness: toggling the watched `mode` field to `advanced` and back
to `basic` restores the original visibility verdict on the concrete
dependency map. -/
theorem checkDependencies_visibility_witness :
    checkDependencies depsMode
      (jsSet (jsSet stateBasic "mode" (.str "advanced")) "mode" (.str "basic")) =
      checkDependencies depsMode stateBasic :=
  checkDependencies_visibility.2.2 depsMode stateBasic "mode"
    (.str "advanced") (.str "basic") rfl

/-! ## C5: button normalization -/

/-- C5, counterexample.  The claim predicts label `Test Connection` for a
button with format `test-connection` regardless of nesting depth; at
nesting depth one the code derives the action but never applies the label
special case, leaving the default label `Button`. -/
theorem preprocessSchema_nested_label_counterexample :
    nestedActionTag (preprocessSchema c5Schema) "outer" "btn" =
      some "testConnection" ∧
    nestedLabelTag (preprocessSchema c5Schema) "outer" "btn" =
      some "Button" ∧
    (nestedLabelTag (preprocessSchema c5Schema) "outer" "btn" ==
      some "Test Connection") = false :=
  ⟨rfl, rfl, by decide⟩

/-- C5, amended: a top-level button field is replaced by a hidden string
field marked as a button whose action follows the stated order
(`options.async.action`, then the camel-cased format, then `unknown`);
the label `Test Connection` is applied only at the top level when the
derived action is exactly `testConnection`, while a depth-one button gets
the same action but keeps its title-or-`Button` label, and deeper fields
are not rewritten (only immediate button children of a top-level object
are mapped). -/
theorem preprocessSchema_button_amended :
    (∀ f, f.type = "button" →
      (preprocessButtonTop f).type = "string" ∧
      fieldIsButton (preprocessButtonTop f) = true ∧
      fieldHidden (preprocessButtonTop f) = true ∧
      fieldActionTag (preprocessButtonTop f) = some (resolveActionSpec f)) ∧
    (∀ props k f, alookup props k = some f → f.type = "button" →
      alookup (preprocessSchema props) k = some (preprocessButtonTop f)) ∧
    (∀ f, fieldActionTag (preprocessButtonNested f) =
      some (resolveActionSpec f)) ∧
    (∀ f, asyncActionOf f = none →
      fieldLabelTag (preprocessButtonNested f) =
        some (jsOrStr f.title "Button")) ∧
    (∀ f ps, f.type = "object" → f.properties = some ps →
      ¬f.format = some "select" →
      preprocessTopField f = f.withProperties (some (ps.map fun kv =>
        (kv.1,
          if kv.2.type = "button" then preprocessButtonNested kv.2
          else kv.2)))) ∧
    fieldActionTag (preprocessButtonTop topButtonField) =
      some "testConnection" ∧
    fieldLabelTag (preprocessButtonTop topButtonField) =
      some "Test Connection" := by
  refine ⟨?_, ?_, ?_, ?_, ?_, by decide, by decide⟩
  · intro f _
    refine ⟨rfl, rfl, rfl, ?_⟩
    cases ha : asyncActionOf f with
    | none =>
      cases hfmt : truthyStr f.format <;>
        simp [preprocessButtonTop, fieldActionTag, resolveActionSpec,
          buttonFormatCaseTop, Field.options, ha, hfmt]
    | some act =>
      simp [preprocessButtonTop, fieldActionTag, resolveActionSpec,
        Field.options, ha]
  · intro props k f h hb
    simp only [preprocessSchema]
    rw [alookup_mapSnd, h]
    simp [preprocessTopField, hb]
  · intro f
    cases ha : asyncActionOf f with
    | none =>
      cases hfmt : truthyStr f.format <;>
        simp [preprocessButtonNested, fieldActionTag, resolveActionSpec,
          buttonFormatCaseNested, Field.options, ha, hfmt]
    | some act =>
      simp [preprocessButtonNested, fieldActionTag, resolveActionSpec,
        Field.options, ha]
  · intro f ha
    simp [preprocessButtonNested, fieldLabelTag, Field.options, ha]
  · intro f ps ht hp hfmt
    have hb : ¬f.type = "button" := by rw [ht]; decide
    simp [preprocessTopField, hb, hfmt, hp, ht]

/-- C5, amended, witness: the amended top-level characterization applied
to the spec's concrete button declaration. -/
theorem preprocessSchema_button_amended_witness :
    fieldActionTag (preprocessButtonTop topButtonField) =
      some (resolveActionSpec topButtonField) :=
  (preprocessSchema_button_amended.1 topButtonField rfl).2.2.2

/-! ## C6: field group classification -/

/-- C6, counterexample.  The claim reads the group tag from the `options`
bag; the code reads the key written directly on the property, so a group
tag stored inside `options` is ignored and the property order decides the
group. -/
theorem detectFieldGroups_options_counterexample :
    detectFieldGroups [("a", c6Field)] = [("Connection", ["a"])] ∧
    classifyField c6Field = "Connection" ∧
    (classifyField c6Field == "MyGroup") = false :=
  ⟨rfl, rfl, by decide⟩

theorem alookup_addToGroup_self (groups : List (String × List String))
    (g k : String) :
    alookup (addToGroup groups g k) g =
      some ((alookup groups g).getD [] ++ [k]) := by
  induction groups with
  | nil => simp [addToGroup, alookup]
  | cons hd tl ih =>
    obtain ⟨g', ks⟩ := hd
    by_cases hg : g' = g
    · subst hg
      simp [addToGroup, alookup]
    · simp [addToGroup, alookup, hg, ih]

theorem alookup_addToGroup_other (groups : List (String × List String))
    (g k g' : String) (h : g' ≠ g) :
    alookup (addToGroup groups g k) g' = alookup groups g' := by
  have h' : ¬g = g' := fun hh => h hh.symm
  induction groups with
  | nil => simp [addToGroup, alookup, h']
  | cons hd tl ih =>
    obtain ⟨g0, ks⟩ := hd
    by_cases hg : g0 = g
    · subst hg
      simp [addToGroup, alookup, h']
    · by_cases hg' : g0 = g'
      · subst hg'
        simp [addToGroup, alookup, hg]
      · simp [addToGroup, alookup, hg, hg', ih]

theorem foldl_addToGroup_preserves (props : List (String × Field)) :
    ∀ acc g ks k, alookup acc g = some ks → k ∈ ks →
    ∃ ks',
      alookup (props.foldl
        (fun groups kv => addToGroup groups (classifyField kv.2) kv.1) acc) g =
        some ks' ∧ k ∈ ks' := by
  induction props with
  | nil => exact fun acc g ks k h hk => ⟨ks, h, hk⟩
  | cons hd rest ih =>
    intro acc g ks k h hk
    simp only [List.foldl_cons]
    by_cases hg : classifyField hd.2 = g
    · subst hg
      exact ih _ _ _ k (by rw [alookup_addToGroup_self, h])
        (by simp [hk])
    · exact ih _ _ _ k
        (by rw [alookup_addToGroup_other _ _ _ _ (fun hh => hg hh.symm)]; exact h)
        hk

theorem detectFieldGroups_mem :
    ∀ (props : List (String × Field)) (acc : List (String × List String))
      (k : String) (f : Field), (k, f) ∈ props →
    ∃ ks,
      alookup (props.foldl
        (fun groups kv => addToGroup groups (classifyField kv.2) kv.1) acc)
        (classifyField f) = some ks ∧ k ∈ ks := by
  intro props
  induction props with
  | nil => intro acc k f h; simp at h
  | cons hd rest ih =>
    intro acc k f h
    obtain ⟨k0, f0⟩ := hd
    simp only [List.foldl_cons]
    rcases List.mem_cons.mp h with heq | htail
    · injection heq with hk hf
      subst hk hf
      exact foldl_addToGroup_preserves rest _ _ _ k
        (alookup_addToGroup_self acc (classifyField f) k) (by simp)
    · exact ih _ k f htail

/-- C6, amended: the classifier assigns the group from the truthy
`x-kbc-group` key written directly on the property (not inside its
`options` bag) when present; otherwise a set `propertyOrder` maps 1 to 4
to Connection, 5 to 7 to Data Selection, and 8 or greater to Destination;
otherwise the property falls into Configuration; and `detectFieldGroups`
files every top-level key under its classified group. -/
theorem detectFieldGroups_amended :
    (∀ f g, truthyStr f.xKbcGroup = some g → classifyField f = g) ∧
    (∀ f n, truthyStr f.xKbcGroup = none → f.propertyOrder = some n →
      1 ≤ n → n ≤ 4 → classifyField f = "Connection") ∧
    (∀ f n, truthyStr f.xKbcGroup = none → f.propertyOrder = some n →
      5 ≤ n → n ≤ 7 → classifyField f = "Data Selection") ∧
    (∀ f n, truthyStr f.xKbcGroup = none → f.propertyOrder = some n →
      8 ≤ n → classifyField f = "Destination") ∧
    (∀ f, truthyStr f.xKbcGroup = none → f.propertyOrder = none →
      classifyField f = "Configuration") ∧
    (∀ props k f, (k, f) ∈ props →
      ∃ ks, alookup (detectFieldGroups props) (classifyField f) = some ks ∧
        k ∈ ks) := by
  refine ⟨?_, ?_, ?_, ?_, ?_, ?_⟩
  · intro f g h
    simp [classifyField, h]
  · intro f n h1 h2 h3 h4
    simp [classifyField, h1, h2, h3, h4]
  · intro f n h1 h2 h3 h4
    have hno : ¬(1 ≤ n ∧ n ≤ 4) := by omega
    simp [classifyField, h1, h2, hno, h3, h4]
  · intro f n h1 h2 h3
    have hno1 : ¬(1 ≤ n ∧ n ≤ 4) := by omega
    have hno2 : ¬(5 ≤ n ∧ n ≤ 7) := by omega
    simp [classifyField, h1, h2, hno1, hno2, h3]
  · intro f h1 h2
    simp [classifyField, h1, h2]
  · intro props k f h
    exact detectFieldGroups_mem props [] k f h

/-- C6, amended, witness: a property with no classification data lands in
the Configuration group of the computed group map. -/
theorem detectFieldGroups_amended_witness :
    ∃ ks, alookup (detectFieldGroups [("a", confField)])
      (classifyField confField) = some ks ∧ "a" ∈ ks :=
  detectFieldGroups_amended.2.2.2.2.2 [("a", confField)] "a" confField
    (List.Mem.head _)

/-! ## C7: debounced reloading -/

/-- When every change of a sorted change sequence arrives strictly within
the delay window of its predecessor, only the timer of the last change
survives. -/
theorem debounceFires_window (delay : Nat) :
    ∀ (t : Nat) (rest : List Nat),
      List.Chain' (fun a b => b < a + delay) (t :: rest) →
      debounceFires delay (t :: rest) =
        [(t :: rest).getLast (List.cons_ne_nil t rest) + delay] := by
  intro t rest
  induction rest generalizing t with
  | nil => intro _; rfl
  | cons t2 r ih =>
    intro h
    rw [List.chain'_cons] at h
    rw [List.getLast_cons (List.cons_ne_nil t2 r)]
    simp only [debounceFires, if_pos h.1]
    exact ih t2 h.2

/-- C7: each change to the watched field cancels the pending timer of its
`(field, watched-field)` key and schedules a fresh one a full delay
later, so a run of changes each arriving inside the window produces
exactly one reload, fired one delay after the last change and reading the
form state at that moment rather than at the first change. -/
theorem debounce_single_reload :
    (∀ delay t1 t2 rest, t2 < t1 + delay →
      debounceFires delay (t1 :: t2 :: rest) =
        debounceFires delay (t2 :: rest)) ∧
    (∀ delay t1 t2 rest, ¬t2 < t1 + delay →
      debounceFires delay (t1 :: t2 :: rest) =
        (t1 + delay) :: debounceFires delay (t2 :: rest)) ∧
    (∀ t rest, List.Chain' (fun a b => b < a + 1000) (t :: rest) →
      debounceFires 1000 (t :: rest) =
        [(t :: rest).getLast (List.cons_ne_nil t rest) + 1000]) ∧
    (∀ formState t rest,
      List.Chain' (fun a b => b < a + 1000) (t :: rest) →
      debounceReloads 1000 formState (t :: rest) =
        [formState ((t :: rest).getLast (List.cons_ne_nil t rest) + 1000)]) := by
  refine ⟨?_, ?_, debounceFires_window 1000, ?_⟩
  · intro delay t1 t2 rest h
    simp [debounceFires, h]
  · intro delay t1 t2 rest h
    simp [debounceFires, h]
  · intro formState t rest h
    rw [debounceReloads, debounceFires_window 1000 t rest h]
    rfl

/-- C7, witness: three rapid changes at 0, 300 and 600 time units with a
1000-unit delay fire exactly once, at 1600, reading the state there. -/
theorem debounce_single_reload_witness :
    debounceFires 1000 [0, 300, 600] = [1600] :=
  debounce_single_reload.2.2.1 0 [300, 600]
    (by norm_num [List.chain'_cons])

/-! ## C8: async option loading -/

/-- C8, counterexample.  The claim says a successful load replaces the
selectable set with the returned values (prepending the empty option when
the field is not required); a successful response carrying an empty array
leaves the previous options untouched instead of replacing them. -/
theorem loadOptions_replace_counterexample :
    loadOptionsStep prevOpts false (some emptyOptionsResp) =
      ⟨prevOpts, false⟩ ∧
    jsonIsStr (firstOptionValue
      (loadOptionsStep prevOpts false (some emptyOptionsResp))) "a" = true ∧
    jsonIsStr (firstOptionValue (SelectState.mk [emptyOption] false)) "a" =
      false :=
  ⟨rfl, by decide, by decide⟩

/-- C8, amended: the loader accepts the three response shapes
interchangeably (a bare array, an `options` key, a `data` key), treats an
element as a value-label pair when it is object-typed and as its own
value and label otherwise, and, when the returned array is non-empty,
replaces the selectable set with the returned values, prepending the
empty unselected option exactly when the field is not required; an empty
returned array leaves the previous selectable set unchanged; the control
is re-enabled on every path. -/
theorem loadOptions_amended :
    (∀ xs, pickOptionsVal (.arr xs) = .arr xs ∧
      pickOptionsVal (.obj [("options", .arr xs)]) = .arr xs ∧
      pickOptionsVal (.obj [("data", .arr xs)]) = .arr xs) ∧
    (∀ o, jsTypeofObject o = false → elemPair o = some (o, o)) ∧
    (∀ fs v l, alookup fs "value" = some v → alookup fs "label" = some l →
      elemPair (.obj fs) = some (v, l)) ∧
    (∀ prev required result xs pairs, pickOptionsVal result = .arr xs →
      xs ≠ [] → extractPairs xs = some pairs →
      loadOptionsStep prev required (some result) =
        ⟨(if !required then [emptyOption] else []) ++ pairs, false⟩) ∧
    (∀ prev required,
      loadOptionsStep prev required (some (.arr [])) = ⟨prev, false⟩) ∧
    (∀ prev required outcome,
      (loadOptionsStep prev required outcome).disabled = false) := by
  refine ⟨fun xs => ⟨rfl, rfl, rfl⟩, ?_, ?_, ?_, fun prev required => rfl, ?_⟩
  · intro o h
    simp [elemPair, h]
  · intro fs v l h1 h2
    simp [elemPair, jsTypeofObject, jsGet, h1, h2]
  · intro prev required result xs pairs h1 h2 h3
    have hxe : xs.isEmpty = false := by
      cases xs with
      | nil => exact absurd rfl h2
      | cons hd tl => rfl
    simp only [loadOptionsStep]
    rw [h1]
    simp [hxe, h3]
  · intro prev required outcome
    cases outcome with
    | none => rfl
    | some r =>
      simp only [loadOptionsStep]
      cases h : pickOptionsVal r with
      | arr xs =>
        cases hxe : xs.isEmpty with
        | true => simp [hxe]
        | false =>
          cases hp : extractPairs xs <;> simp [hxe, hp]
      | null => rfl
      | undefined => rfl
      | bool b => rfl
      | num n => rfl
      | str s => rfl
      | obj fs => rfl

/-- C8, amended, witness: a two-element `data` response on a non-required
field replaces the set and prepends the empty option. -/
theorem loadOptions_amended_witness :
    loadOptionsStep prevOpts false
      (some (.obj [("data", .arr [.str "u", .str "v"])])) =
      ⟨[emptyOption, (.str "u", .str "u"), (.str "v", .str "v")], false⟩ :=
  loadOptions_amended.2.2.2.1 prevOpts false
    (.obj [("data", .arr [.str "u", .str "v"])])
    [.str "u", .str "v"] [(.str "u", .str "u"), (.str "v", .str "v")]
    rfl (by simp) rfl

/-! ## C10: schema upload mutates state before validation -/

/-- C10: the load-schemas handler assigns the process-wide stored
component schema, row schema and component name from the request body
before validating, so the stored state after any request — including one
rejected with 400 for a missing schema — is the state computed from the
body, and a previously stored schema pair is overwritten even on the
error path. -/
theorem load_schemas_state_overwrite :
    (∀ st body, (load_schemas st body).1 = storeFromBody body) ∧
    (∀ st body, ((load_schemas st body).2.code = 400 ↔
      (pyTruthy body.componentSchema = false ∨
        pyTruthy body.rowSchema = false))) ∧
    (load_schemas st0C10 bodyBad).2.code = 400 ∧
    (load_schemas st0C10 bodyBad).1.loadedComponentSchema =
      .obj [("title", .str "new")] ∧
    (load_schemas st0C10 bodyBad).1.loadedRowSchema = .null ∧
    pyTruthy st0C10.loadedRowSchema = true ∧
    pyTruthy (load_schemas st0C10 bodyBad).1.loadedRowSchema = false := by
  refine ⟨?_, ?_, rfl, rfl, rfl, by decide, by decide⟩
  · intro st body
    unfold load_schemas storeFromBody
    split <;> rfl
  · intro st body
    unfold load_schemas
    by_cases h : (!pyTruthy body.componentSchema ||
        !pyTruthy body.rowSchema) = true
    · rw [if_pos h]
      simp only [Bool.or_eq_true, Bool.not_eq_true'] at h
      simp [h]
    · rw [if_neg h]
      simp only [Bool.or_eq_true, Bool.not_eq_true'] at h
      push_neg at h
      simp [h.1, h.2]

end SchemaTester
